import Mathlib

/-!
Verification of the Shipment Enrichment & Tolerant Identifier Resolution
Engine of the Container-Tracking demo (src/api/index.py).

The numeric pipeline (ml_eta, risk_band) is embedded over ℚ — every
arithmetic operation the Python code performs on these paths (+, *, /,
min, max, comparisons) is exact on rationals, and every Python float
literal involved (0.1, 2.5, 1.64, 0.5, 0.3, 0.2, 15.0, 0.66, 0.33, 0.25)
denotes the corresponding rational here.  The geodesy function
haversine_km is embedded over ℝ (it uses sin/cos/asin/sqrt).

String handling (canon, key10, the /api/container resolution tiers) is
embedded over Lean String / List Char.  Python str.upper / str.lower
are modelled by the ASCII maps Char.toUpper / Char.toLower; the regex
filter [^A-Z0-9] keeps only code points 65–90 and 48–57, so every
character surviving canonicalization is ASCII and the ASCII model agrees
with Python on all canonical data.
-/

namespace ContainerApi

/-! ### ETA model (ml_eta, src/api/index.py lines 61–72)

The coefficient configuration is the JSON object data/eta_model.json:
an intercept, four coefficients, and an optional "sigma_hours" entry
(`m.get("sigma_hours", 2.5)`). -/

structure EtaCoef where
  distance_nm : ℚ
  inv_speed : ℚ
  wind : ℚ
  congestion : ℚ
deriving DecidableEq

structure EtaModelCfg where
  intercept : ℚ
  coef : EtaCoef
  sigma_hours : Option ℚ
deriving DecidableEq

/-- sigma = float(m.get("sigma_hours", 2.5)) -/
def etaSigma (m : EtaModelCfg) : ℚ :=
  m.sigma_hours.getD 2.5

/-- hours = intercept + coef.distance_nm*distance + coef.inv_speed*(1/max(speed,0.1))
  + coef.wind*wind + coef.congestion*congestion  (lines 63–70). -/
def mlEtaHours (m : EtaModelCfg) (distance_nm speed_kts wind_mps congestion_idx : ℚ) : ℚ :=
  m.intercept
    + m.coef.distance_nm * distance_nm
    + m.coef.inv_speed * (1 / max speed_kts 0.1)
    + m.coef.wind * wind_mps
    + m.coef.congestion * congestion_idx

/-- ci_90 = [hours - 1.64*sigma, hours + 1.64*sigma]  (line 72). -/
def mlEtaCi90 (m : EtaModelCfg) (distance_nm speed_kts wind_mps congestion_idx : ℚ) : ℚ × ℚ :=
  (mlEtaHours m distance_nm speed_kts wind_mps congestion_idx - 1.64 * etaSigma m,
   mlEtaHours m distance_nm speed_kts wind_mps congestion_idx + 1.64 * etaSigma m)

/-! ### Risk scorer (risk_band, src/api/index.py lines 74–84)

The region table is the JSON object data/region_risk.json, modelled as an
association list; `dict.get(region, 0.25)` is `lookup` with default. -/

abbrev RegionTable := List (String × ℚ)

/-- base = float(load_json(DATA_RISK).get(region, 0.25))  (line 75). -/
def regionBase (tbl : RegionTable) (region : String) : ℚ :=
  (tbl.lookup region).getD 0.25

/-- score = min(1.0, 0.5*drift + 0.3*weather + 0.2*base), with
drift = max(pred-planned,0)/max(planned,1) and weather = min(wind/15,1)
(lines 76–78). -/
def riskScore (tbl : RegionTable) (pred_hours planned_hours wind_mps : ℚ) (region : String) : ℚ :=
  min 1 (0.5 * (max (pred_hours - planned_hours) 0 / max planned_hours 1)
    + 0.3 * min (wind_mps / 15.0) 1
    + 0.2 * regionBase tbl region)

inductive Band where
  | LOW
  | MED
  | HIGH
deriving DecidableEq

/-- band = "LOW"; if score >= 0.66: "HIGH" elif score >= 0.33: "MED"  (lines 79–83). -/
def bandOf (score : ℚ) : Band :=
  if score ≥ 0.66 then .HIGH else if score ≥ 0.33 then .MED else .LOW

/-- risk_band returns {"score": score, "band": band}  (line 84). -/
def riskBand (tbl : RegionTable) (pred_hours planned_hours wind_mps : ℚ) (region : String) :
    ℚ × Band :=
  (riskScore tbl pred_hours planned_hours wind_mps region,
   bandOf (riskScore tbl pred_hours planned_hours wind_mps region))

/-! ### Canonicalizer (canon / key10, src/api/index.py lines 119–124) -/

/-- Characters kept by re.sub(r"[^A-Z0-9]", "", ·): code points 65–90
(A–Z) and 48–57 (0–9). -/
def keepAlnum (c : Char) : Bool :=
  (65 ≤ c.toNat && c.toNat ≤ 90) || (48 ≤ c.toNat && c.toNat ≤ 57)

/-- canon(s) = re.sub(r"[^A-Z0-9]", "", str(s).upper()) on a character
list; str.upper is modelled by the ASCII map Char.toUpper. -/
def canonList (l : List Char) : List Char :=
  (l.map Char.toUpper).filter keepAlnum

def canon (s : String) : String :=
  ⟨canonList s.data⟩

/-- key10(s): c[:10] if len(c) >= 10 else c, where c = canon(s); both
branches equal `take 10` of the canonical character list. -/
def key10 (s : String) : String :=
  ⟨(canonList s.data).take 10⟩

/-! ### Identifier resolution (api_container, src/api/index.py lines 138–176)

Resolution reads three fields of each (enriched) shipment: "id",
"vessel" and "containers"; the enrichment metrics are never consulted,
so the embedding carries exactly those fields.  The source strips the
raw query (`cn.strip()`) before canon/key10; canonicalization discards
every non-alphanumeric character, whitespace included, so the strip is
a no-op for both `q = canon(q_raw)` and `q10 = key10(q_raw)` and is
dropped here. -/

structure Shipment where
  id : String
  vessel : String
  containers : List String
deriving DecidableEq

structure Suggestion where
  id : String
  vessel : String
  sample : String
deriving DecidableEq

/-- The four possible JSON responses of GET /api/container:
`exactM` = {"matchedBy": "exact"}, `key10M` = {"matchedBy": "key10",
"alternates": ...}, `suggestM` = the 404 carrying "suggestions",
`notFound` = the plain 404 {"error": "Not found"}. -/
inductive MatchResult where
  | exactM (s : Shipment)
  | key10M (s : Shipment) (alternates : List String)
  | suggestM (suggestions : List Suggestion)
  | notFound
deriving DecidableEq

/-- Python str.lower, ASCII model (mirrors the toUpper model above). -/
def lowerList (l : List Char) : List Char :=
  l.map Char.toLower

/-- Python substring test `needle in hay` (contiguous occurrence). -/
def strIn : List Char → List Char → Bool
  | n, [] => n.isEmpty
  | n, c :: t => n.isPrefixOf (c :: t) || strIn n t

/-- Tier-1 predicate (line 147): q.lower() in s["id"].lower() or
any(q in canon(c) for c in s["containers"]), where q = canon(q_raw). -/
def tier1M (q : String) (s : Shipment) : Bool :=
  strIn (lowerList q.data) (lowerList s.id.data)
    || s.containers.any fun c => strIn q.data (canonList c.data)

/-- Tier-2 per-shipment test (lines 152–155): some container satisfies
key10(c) == q10 and len(q10) == 10 (the shipment is appended once,
via `break`). -/
def key10Hit (q10 : String) (s : Shipment) : Bool :=
  s.containers.any fun c => key10 c == q10 && decide (q10.length = 10)

/-- exact10: the shipments collected by the tier-2 loop, in input order. -/
def key10Matches (q10 : String) (items : List Shipment) : List Shipment :=
  items.filter (key10Hit q10)

/-- The multiset underlying {c for s in exact10 for c in s["containers"]
if key10(c) == q10}  (line 158). -/
def gatherAlts (q10 : String) (items : List Shipment) : List String :=
  (key10Matches q10 items).flatMap fun s => s.containers.filter fun c => key10 c == q10

/-- First-occurrence deduplication.  The source materializes a Python
set and lists it (line 158); set enumeration order is unspecified, so
the embedding determinizes it to first occurrence.  Every property
proved about the alternates (no duplicates, cap, membership) is
independent of that enumeration order. -/
def dedupFirstAux : List String → List String → List String
  | _, [] => []
  | seen, x :: t => if x ∈ seen then dedupFirstAux seen t else x :: dedupFirstAux (x :: seen) t

/-- alts = list({...})[:10]  (line 158). -/
def key10Alts (q10 : String) (items : List Shipment) : List String :=
  (dedupFirstAux [] (gatherAlts q10 items)).take 10

/-- Tier-3 per-shipment test (line 165): q in canon(s["id"]) or
any(canon(c).startswith(q) for c in s["containers"]). -/
def suggHit (q : String) (s : Shipment) : Bool :=
  strIn q.data (canonList s.id.data)
    || s.containers.any fun c => q.data.isPrefixOf (canonList c.data)

/-- The suggestions list built by lines 162–166: empty unless
len(q) >= 4; {"id", "vessel", "sample": s["containers"][0]} per hit.
The source indexes containers[0]; ShipmentRecord guarantees a non-empty
container list, embedded as headD with an irrelevant default. -/
def suggestionsFor (q : String) (items : List Shipment) : List Suggestion :=
  if 4 ≤ q.length then
    (items.filter (suggHit q)).map fun s => ⟨s.id, s.vessel, s.containers.headD ""⟩
  else []

/-- The cap-and-dedupe loop of lines 169–173: per element, add it to
`uniq` if its id is unseen, then stop as soon as uniq holds 10 entries. -/
def dedupCapAux : List String → List Suggestion → List Suggestion → List Suggestion
  | _, uniq, [] => uniq
  | seen, uniq, r :: t =>
    let st := if r.id ∈ seen then (seen, uniq) else (r.id :: seen, uniq ++ [r])
    if 10 ≤ st.2.length then st.2 else dedupCapAux st.1 st.2 t

def capDedupSugg (l : List Suggestion) : List Suggestion :=
  dedupCapAux [] [] l

/-- Uncapped first-occurrence dedup by suggestion id (specification
device used to characterize the loop above). -/
def dedupSuggAux : List String → List Suggestion → List Suggestion
  | _, [] => []
  | seen, r :: t => if r.id ∈ seen then dedupSuggAux seen t else r :: dedupSuggAux (r.id :: seen) t

/-- GET /api/container (lines 138–176): tier 1 (direct substring),
then tier 2 (key10), then suggestions, else plain not-found. -/
def apiContainer (cn : String) (items : List Shipment) : MatchResult :=
  let q := canon cn
  let q10 := key10 cn
  match items.find? (tier1M q) with
  | some s => .exactM s
  | none =>
    match key10Matches q10 items with
    | s :: _ => .key10M s (key10Alts q10 items)
    | [] =>
      let sugg := suggestionsFor q items
      if sugg.isEmpty then .notFound else .suggestM (capDedupSugg sugg)

/-! ### Geodesy (haversine_km, src/api/index.py lines 28–40), over ℝ -/

noncomputable section

def R_EARTH_KM : ℝ := 6371.0

/-- to_rad(d) = d * math.pi / 180.0  (lines 31–32). -/
def to_rad (d : ℝ) : ℝ := d * Real.pi / 180.0

/-- h = sin(d_lat/2)**2 + cos(lat1)*cos(lat2)*sin(d_lon/2)**2
(lines 35–39).  The source takes math.asin(math.sqrt(h)) directly; no
clamp of h to [0,1] appears anywhere in the function. -/
def haversineH (a_lat a_lon b_lat b_lon : ℝ) : ℝ :=
  Real.sin (to_rad (b_lat - a_lat) / 2) ^ 2
    + Real.cos (to_rad a_lat) * Real.cos (to_rad b_lat)
      * Real.sin (to_rad (b_lon - a_lon) / 2) ^ 2

/-- return 2 * R_EARTH_KM * math.asin(math.sqrt(h))  (line 40). -/
def haversine_km (a_lat a_lon b_lat b_lon : ℝ) : ℝ :=
  2 * R_EARTH_KM * Real.arcsin (Real.sqrt (haversineH a_lat a_lon b_lat b_lon))

end

/-- Half-angle rewriting: sin(x/2)^2 = 1/2 - cos(x)/2. -/
theorem sin_half_sq (x : ℝ) : Real.sin (x / 2) ^ 2 = 1 / 2 - Real.cos x / 2 := by
  have h := Real.sin_sq_eq_half_sub (x / 2)
  rwa [show 2 * (x / 2) = x by ring] at h

/-- The quantity sin A sin B + cos A cos B cos L lies in [-1, 1]. -/
theorem mix_cos_bounds (A B L : ℝ) :
    -1 ≤ Real.sin A * Real.sin B + Real.cos A * Real.cos B * Real.cos L
      ∧ Real.sin A * Real.sin B + Real.cos A * Real.cos B * Real.cos L ≤ 1 := by
  have hL1 : (0:ℝ) ≤ 1 + Real.cos L := by nlinarith [Real.neg_one_le_cos L]
  have hL2 : (0:ℝ) ≤ 1 - Real.cos L := by nlinarith [Real.cos_le_one L]
  have hd1 : (0:ℝ) ≤ 1 - (Real.cos A * Real.cos B + Real.sin A * Real.sin B) := by
    have := Real.cos_le_one (A - B)
    rw [Real.cos_sub] at this
    linarith
  have hd2 : (0:ℝ) ≤ 1 + (Real.cos A * Real.cos B + Real.sin A * Real.sin B) := by
    have := Real.neg_one_le_cos (A - B)
    rw [Real.cos_sub] at this
    linarith
  have hs1 : (0:ℝ) ≤ 1 - (Real.cos A * Real.cos B - Real.sin A * Real.sin B) := by
    have := Real.cos_le_one (A + B)
    rw [Real.cos_add] at this
    linarith
  have hs2 : (0:ℝ) ≤ 1 + (Real.cos A * Real.cos B - Real.sin A * Real.sin B) := by
    have := Real.neg_one_le_cos (A + B)
    rw [Real.cos_add] at this
    linarith
  constructor
  · nlinarith [mul_nonneg hL1 hd2, mul_nonneg hL2 hs2]
  · nlinarith [mul_nonneg hL1 hd1, mul_nonneg hL2 hs1]

/-- The haversine intermediate in product form equals (1 - E)/2 with
E = sin A sin B + cos A cos B cos L. -/
theorem hav_as_half (A B L : ℝ) :
    Real.sin ((B - A) / 2) ^ 2 + Real.cos A * Real.cos B * Real.sin (L / 2) ^ 2
      = (1 - (Real.sin A * Real.sin B + Real.cos A * Real.cos B * Real.cos L)) / 2 := by
  rw [sin_half_sq, sin_half_sq, Real.cos_sub]
  ring

/-- Over exact real arithmetic the haversine intermediate always lies
in [0, 1]. -/
theorem haversineH_mem_unit (a_lat a_lon b_lat b_lon : ℝ) :
    0 ≤ haversineH a_lat a_lon b_lat b_lon ∧ haversineH a_lat a_lon b_lat b_lon ≤ 1 := by
  unfold haversineH
  have hrad : to_rad (b_lat - a_lat) = to_rad b_lat - to_rad a_lat := by
    unfold to_rad; ring
  rw [hrad, hav_as_half (to_rad a_lat) (to_rad b_lat) (to_rad (b_lon - a_lon))]
  have := mix_cos_bounds (to_rad a_lat) (to_rad b_lat) (to_rad (b_lon - a_lon))
  constructor <;> linarith [this.1, this.2]

/-! ### Helper lemmas -/

/-- A kept character is ASCII upper-case or a digit, hence fixed by toUpper. -/
theorem toUpper_eq_self_of_keep {c : Char} (h : keepAlnum c = true) : c.toUpper = c := by
  have hn : c.toNat ≤ 90 ∨ c.toNat ≤ 57 := by
    rcases Bool.or_eq_true_iff.mp h with h' | h'
    · exact .inl (by simpa using (Bool.and_eq_true_iff.mp h').2)
    · exact .inr (by simpa using (Bool.and_eq_true_iff.mp h').2)
  unfold Char.toUpper
  rw [if_neg]
  omega

theorem canonList_idem (l : List Char) : canonList (canonList l) = canonList l := by
  unfold canonList
  have hmap : (((l.map Char.toUpper).filter keepAlnum).map Char.toUpper)
      = (l.map Char.toUpper).filter keepAlnum := by
    have : ((l.map Char.toUpper).filter keepAlnum).map Char.toUpper
        = ((l.map Char.toUpper).filter keepAlnum).map id :=
      List.map_congr_left fun c hc => toUpper_eq_self_of_keep (List.of_mem_filter hc)
    simpa using this
  rw [hmap, List.filter_filter]
  simp

/-- The empty string is a Python-substring of every string. -/
theorem strIn_nil_left (l : List Char) : strIn [] l = true := by
  cases l <;> simp [strIn, List.isPrefixOf]

/-- find? returns the first element of the list satisfying the predicate. -/
theorem find?_first {α : Type} {p : α → Bool} (s : α) (post : List α) :
    ∀ pre : List α, p s = true → (∀ x ∈ pre, p x = false) →
      (pre ++ s :: post).find? p = some s := by
  intro pre hs hpre
  induction pre with
  | nil => simp [List.find?_cons_of_pos post hs]
  | cons a t ih =>
    have ha : p a = false := hpre a (by simp)
    have ht : ∀ x ∈ t, p x = false := fun x hx => hpre x (by simp [hx])
    simp [List.find?_cons, ha, ih ht]

theorem mem_dedupFirstAux (x : String) :
    ∀ (l seen : List String), x ∈ dedupFirstAux seen l ↔ x ∈ l ∧ x ∉ seen := by
  intro l
  induction l with
  | nil => simp [dedupFirstAux]
  | cons y t ih =>
    intro seen
    by_cases hy : y ∈ seen
    · rw [dedupFirstAux, if_pos hy, ih seen]
      constructor
      · rintro ⟨hxt, hxs⟩; exact ⟨by simp [hxt], hxs⟩
      · rintro ⟨hxy, hxs⟩
        rcases List.mem_cons.mp hxy with rfl | hxt
        · exact absurd hy hxs
        · exact ⟨hxt, hxs⟩
    · rw [dedupFirstAux, if_neg hy]
      constructor
      · intro hx
        rcases List.mem_cons.mp hx with rfl | hx'
        · exact ⟨by simp, hy⟩
        · rcases (ih (y :: seen)).mp hx' with ⟨hxt, hxs⟩
          exact ⟨by simp [hxt], fun hc => hxs (by simp [hc])⟩
      · rintro ⟨hxy, hxs⟩
        rcases List.mem_cons.mp hxy with rfl | hxt
        · exact List.mem_cons_self x _
        · by_cases hxy' : x = y
          · subst hxy'; exact List.mem_cons_self x _
          · exact List.mem_cons_of_mem y ((ih (y :: seen)).mpr
              ⟨hxt, by simp [hxy', hxs]⟩)

theorem dedupFirstAux_nodup : ∀ (l seen : List String), (dedupFirstAux seen l).Nodup := by
  intro l
  induction l with
  | nil => simp [dedupFirstAux]
  | cons y t ih =>
    intro seen
    by_cases hy : y ∈ seen
    · rw [dedupFirstAux, if_pos hy]; exact ih seen
    · rw [dedupFirstAux, if_neg hy]
      refine List.nodup_cons.mpr ⟨fun hc => ?_, ih (y :: seen)⟩
      exact ((mem_dedupFirstAux y t (y :: seen)).mp hc).2 (by simp)

theorem dedupSuggAux_spec :
    ∀ (l : List Suggestion) (seen : List String),
      ((dedupSuggAux seen l).map Suggestion.id).Nodup
        ∧ ∀ r ∈ dedupSuggAux seen l, r.id ∉ seen := by
  intro l
  induction l with
  | nil => simp [dedupSuggAux]
  | cons r t ih =>
    intro seen
    by_cases hr : r.id ∈ seen
    · rw [dedupSuggAux, if_pos hr]; exact ih seen
    · rw [dedupSuggAux, if_neg hr]
      obtain ⟨ihn, ihs⟩ := ih (r.id :: seen)
      refine ⟨List.nodup_cons.mpr ⟨fun hc => ?_, ihn⟩, ?_⟩
      · obtain ⟨r', hr', hid⟩ := List.mem_map.mp hc
        exact ihs r' hr' (by simp [hid])
      · intro r' hr'
        rcases List.mem_cons.mp hr' with rfl | hr''
        · exact hr
        · exact fun hc => ihs r' hr'' (by simp [hc])

/-- The cap-and-dedupe loop is first-occurrence dedup truncated to 10. -/
theorem dedupCapAux_eq :
    ∀ (l : List Suggestion) (seen : List String) (uniq : List Suggestion),
      uniq.length < 10 →
      dedupCapAux seen uniq l = (uniq ++ dedupSuggAux seen l).take 10 := by
  intro l
  induction l with
  | nil =>
    intro seen uniq h
    rw [dedupCapAux, dedupSuggAux, List.append_nil, List.take_of_length_le (by omega)]
  | cons r t ih =>
    intro seen uniq h
    by_cases hr : r.id ∈ seen
    · rw [dedupCapAux, dedupSuggAux, if_pos hr, if_pos hr]
      simpa using if_neg (by omega : ¬ 10 ≤ uniq.length) ▸ ih seen uniq h
    · rw [dedupCapAux, dedupSuggAux, if_neg hr, if_neg hr]
      simp only
      by_cases hl : 10 ≤ (uniq ++ [r]).length
      · rw [if_pos hl, List.append_cons uniq r (dedupSuggAux (r.id :: seen) t),
          List.take_left' (by simp at hl ⊢; omega)]
      · rw [if_neg hl,
          ih (r.id :: seen) (uniq ++ [r]) (by simp at hl ⊢; omega),
          List.append_cons uniq r (dedupSuggAux (r.id :: seen) t), List.append_assoc]

theorem capDedupSugg_eq (l : List Suggestion) :
    capDedupSugg l = (dedupSuggAux [] l).take 10 := by
  rw [capDedupSugg, dedupCapAux_eq l [] [] (by simp), List.nil_append]

/-- An association-list lookup hit is a member of the list. -/
theorem lookup_mem {l : List (String × ℚ)} {k : String} {v : ℚ}
    (h : l.lookup k = some v) : (k, v) ∈ l := by
  obtain ⟨l₁, l₂, rfl, -⟩ := List.lookup_eq_some_iff.mp h
  simp

/-! ### Claim theorems -/

/-- C1: resolution evaluates the tiers in strict order with
short-circuiting.  If some shipment matches the exact/substring tier,
the first such shipment in input-iteration order is returned tagged
exact; the key10 tier can produce the answer only when tier 1 matched
no shipment, and the suggestion tier only when tier 1 matched no
shipment and the key10 collection is empty. -/
theorem resolution_tier_order (cn : String) (items : List Shipment) :
    (∀ pre s post, items = pre ++ s :: post → tier1M (canon cn) s = true →
        (∀ x ∈ pre, tier1M (canon cn) x = false) →
        apiContainer cn items = .exactM s)
      ∧ (∀ s alts, apiContainer cn items = .key10M s alts →
          ∀ x ∈ items, tier1M (canon cn) x = false)
      ∧ (∀ l, apiContainer cn items = .suggestM l →
          (∀ x ∈ items, tier1M (canon cn) x = false)
            ∧ key10Matches (key10 cn) items = []) := by
  refine ⟨?_, ?_, ?_⟩
  · intro pre s post hit hs hpre
    subst hit
    simp only [apiContainer]
    rw [find?_first s post pre hs hpre]
  · intro s alts h x hx
    cases hf : items.find? (tier1M (canon cn)) with
    | some s' => simp [apiContainer, hf] at h
    | none => exact Bool.eq_false_iff.mpr (List.find?_eq_none.mp hf x hx)
  · intro l h
    cases hf : items.find? (tier1M (canon cn)) with
    | some s' => simp [apiContainer, hf] at h
    | none =>
      cases hk : key10Matches (key10 cn) items with
      | cons s' rest => simp [apiContainer, hf, hk] at h
      | nil =>
        exact ⟨fun x hx => Bool.eq_false_iff.mpr (List.find?_eq_none.mp hf x hx), rfl⟩

/-- C1 witness: with two tier-1 matching shipments the first one is
returned tagged exact. -/
theorem resolution_tier_order_w :
    apiContainer "AB" [⟨"AB-1", "V", ["QQQQ"]⟩, ⟨"AB-2", "W", ["RRRR"]⟩]
      = .exactM ⟨"AB-1", "V", ["QQQQ"]⟩ :=
  (resolution_tier_order "AB" [⟨"AB-1", "V", ["QQQQ"]⟩, ⟨"AB-2", "W", ["RRRR"]⟩]).1
    [] ⟨"AB-1", "V", ["QQQQ"]⟩ [⟨"AB-2", "W", ["RRRR"]⟩] rfl (by decide) (by simp)

/-- C2 counterexample: the claim quantifies over every wind value, but a
negative wind value drives the score below 0 (weather = min(wind/15, 1)
has no lower guard): with pred = planned = 0, wind = -100 and an unknown
region the score is -39/20. -/
theorem risk_score_below_zero_cex : riskScore [] 0 0 (-100) "Pacific" < 0 := by
  norm_num [riskScore, regionBase, min_def, max_def]

/-- C2 (amended): for every predicted/planned hours and region, every
region table whose base risks lie in [0, 1], and every non-negative
wind value, the risk score lies in [0, 1]. -/
theorem risk_score_in_unit (tbl : RegionTable) (pred planned wind : ℚ) (region : String)
    (hw : 0 ≤ wind) (htbl : ∀ p ∈ tbl, 0 ≤ p.2 ∧ p.2 ≤ 1) :
    0 ≤ riskScore tbl pred planned wind region
      ∧ riskScore tbl pred planned wind region ≤ 1 := by
  have hbase : 0 ≤ regionBase tbl region ∧ regionBase tbl region ≤ 1 := by
    unfold regionBase
    cases hl : tbl.lookup region with
    | none => norm_num
    | some v => simpa using htbl _ (lookup_mem hl)
  have hdrift : 0 ≤ max (pred - planned) 0 / max planned 1 :=
    div_nonneg (le_max_right _ _) (le_trans zero_le_one (le_max_right _ _))
  have hwth : 0 ≤ min (wind / 15.0) 1 := le_min (by positivity) zero_le_one
  constructor
  · unfold riskScore
    exact le_min (by norm_num) (by linarith [hbase.1])
  · unfold riskScore
    exact min_le_left _ _

/-- C2 witness: a concrete in-range evaluation. -/
theorem risk_score_in_unit_w :
    0 ≤ riskScore [("Indian Ocean", 0.4)] 50 48 5 "Indian Ocean"
      ∧ riskScore [("Indian Ocean", 0.4)] 50 48 5 "Indian Ocean" ≤ 1 :=
  risk_score_in_unit [("Indian Ocean", 0.4)] 50 48 5 "Indian Ocean" (by norm_num)
    (by intro p hp; rw [List.mem_singleton] at hp; subst hp; norm_num)

/-- C3 counterexample: the claim quantifies over every configuration,
but a configuration with a negative sigma_hours flips the interval:
with sigma = -1 and a zero model the point prediction 0 lies strictly
below ci90 lower bound 1.64, refuting ci90 lower ≤ hours. -/
theorem eta_ci_cex :
    mlEtaHours ⟨0, ⟨0, 0, 0, 0⟩, some (-1)⟩ 100 10 5 0.25
      < (mlEtaCi90 ⟨0, ⟨0, 0, 0, 0⟩, some (-1)⟩ 100 10 5 0.25).1 := by
  norm_num [mlEtaCi90, mlEtaHours, etaSigma]

/-- C3 (amended): whenever the sigma parameter in use (the configured
sigma_hours, or the 2.5-hour default) is non-negative, the 90%
confidence interval brackets the point prediction for every distance,
speed, wind and congestion index. -/
theorem eta_ci_brackets (m : EtaModelCfg) (d s w c : ℚ) (h : 0 ≤ etaSigma m) :
    (mlEtaCi90 m d s w c).1 ≤ mlEtaHours m d s w c
      ∧ mlEtaHours m d s w c ≤ (mlEtaCi90 m d s w c).2 := by
  have hs : 0 ≤ 1.64 * etaSigma m := mul_nonneg (by norm_num) h
  unfold mlEtaCi90
  exact ⟨by simpa using by linarith, by simpa using by linarith⟩

/-- C3 witness: the spec §8 model configuration (sigma unset, so the
2.5-hour default applies). -/
theorem eta_ci_brackets_w :
    (mlEtaCi90 ⟨2, ⟨0.01, 5, 0.1, 1⟩, none⟩ 100 18 5 0.25).1
        ≤ mlEtaHours ⟨2, ⟨0.01, 5, 0.1, 1⟩, none⟩ 100 18 5 0.25
      ∧ mlEtaHours ⟨2, ⟨0.01, 5, 0.1, 1⟩, none⟩ 100 18 5 0.25
        ≤ (mlEtaCi90 ⟨2, ⟨0.01, 5, 0.1, 1⟩, none⟩ 100 18 5 0.25).2 :=
  eta_ci_brackets ⟨2, ⟨0.01, 5, 0.1, 1⟩, none⟩ 100 18 5 0.25 (by norm_num [etaSigma])

/-- C4: the source computes math.asin(math.sqrt(h)) with no clamp of h
(src/api/index.py line 40), while the claim and the spec require the
intermediate to be clamped to [0,1].  Over exact real arithmetic the
intermediate always lies in [0,1] — so the clamp the spec demands is a
no-op on reals (third conjunct) and matters precisely for the
floating-point rounding that the code leaves unguarded — and the
distance is non-negative and well defined. -/
theorem haversine_intermediate_unit (a_lat a_lon b_lat b_lon : ℝ) :
    0 ≤ haversineH a_lat a_lon b_lat b_lon
      ∧ haversineH a_lat a_lon b_lat b_lon ≤ 1
      ∧ haversineH a_lat a_lon b_lat b_lon
          = min 1 (max 0 (haversineH a_lat a_lon b_lat b_lon))
      ∧ 0 ≤ haversine_km a_lat a_lon b_lat b_lon := by
  obtain ⟨h0, h1⟩ := haversineH_mem_unit a_lat a_lon b_lat b_lon
  refine ⟨h0, h1, ?_, ?_⟩
  · rw [max_eq_right h0, min_eq_right h1]
  · unfold haversine_km R_EARTH_KM
    have := Real.arcsin_nonneg.mpr (Real.sqrt_nonneg (haversineH a_lat a_lon b_lat b_lon))
    nlinarith

/-- C5: band assignment is an inclusive-lower-bound partition: scores of
at least 0.66 are HIGH (0.66 itself included), scores in [0.33, 0.66)
are MED, lower scores LOW.  bandOf is a total function, so every score
receives exactly one band. -/
theorem band_partition (x : ℚ) :
    (0.66 ≤ x → bandOf x = .HIGH)
      ∧ (0.33 ≤ x → x < 0.66 → bandOf x = .MED)
      ∧ (x < 0.33 → bandOf x = .LOW) := by
  refine ⟨fun h => ?_, fun h1 h2 => ?_, fun h => ?_⟩
  · simp [bandOf, h]
  · have hn : ¬ (x ≥ 0.66) := not_le.mpr h2
    simp [bandOf, hn, h1]
  · have hn1 : ¬ (x ≥ 0.66) := not_le.mpr (lt_trans h (by norm_num))
    have hn2 : ¬ (x ≥ 0.33) := not_le.mpr h
    simp [bandOf, hn1, hn2]

/-- C5 witness: the boundary scores 0.66 and 0.33, and a low score. -/
theorem band_partition_w :
    bandOf 0.66 = .HIGH ∧ bandOf 0.33 = .MED ∧ bandOf 0.2 = .LOW :=
  ⟨(band_partition 0.66).1 (by norm_num),
   (band_partition 0.33).2.1 (by norm_num) (by norm_num),
   (band_partition 0.2).2.2 (by norm_num)⟩

/-- C6: when tier 1 finds nothing and the key10 of the query is exactly 10
characters long, the key10 tier collects exactly the shipments owning a
container code with the key10 of the query (first conjunct); the gathered
alternates pool is exactly the container codes of collected shipments
sharing that key10 (second conjunct); and on a non-empty collection the
first collected shipment is the primary result with alternates
deduplicated, capped at 10, drawn from that pool, and exhaustive
whenever the deduplicated pool fits the cap (third conjunct). -/
theorem key10_tier_spec (cn : String) (items : List Shipment)
    (h1 : items.find? (tier1M (canon cn)) = none)
    (h2 : (key10 cn).length = 10) :
    (∀ x, x ∈ key10Matches (key10 cn) items
        ↔ x ∈ items ∧ ∃ c ∈ x.containers, key10 c = key10 cn)
      ∧ (∀ c, c ∈ gatherAlts (key10 cn) items
          ↔ ∃ x ∈ key10Matches (key10 cn) items, c ∈ x.containers ∧ key10 c = key10 cn)
      ∧ (∀ s rest, key10Matches (key10 cn) items = s :: rest →
          apiContainer cn items = .key10M s (key10Alts (key10 cn) items)
            ∧ (key10Alts (key10 cn) items).Nodup
            ∧ (key10Alts (key10 cn) items).length ≤ 10
            ∧ (∀ c ∈ key10Alts (key10 cn) items, c ∈ gatherAlts (key10 cn) items)
            ∧ ((dedupFirstAux [] (gatherAlts (key10 cn) items)).length ≤ 10 →
                ∀ c ∈ gatherAlts (key10 cn) items, c ∈ key10Alts (key10 cn) items)) := by
  refine ⟨?_, ?_, ?_⟩
  · intro x
    simp [key10Matches, key10Hit, List.mem_filter, List.any_eq_true, h2, beq_iff_eq]
  · intro c
    simp [gatherAlts, List.mem_flatMap, List.mem_filter, beq_iff_eq]
  · intro s rest hk
    refine ⟨?_, ?_, ?_, ?_, ?_⟩
    · simp only [apiContainer, h1, hk]
    · exact List.Nodup.sublist (List.take_sublist _ _) (dedupFirstAux_nodup _ _)
    · unfold key10Alts
      rw [List.length_take]
      exact min_le_left _ _
    · intro c hc
      exact ((mem_dedupFirstAux c _ _).mp (List.take_subset _ _ hc)).1
    · intro hlen c hg
      unfold key10Alts
      rw [List.take_of_length_le hlen]
      exact (mem_dedupFirstAux c _ _).mpr ⟨hg, by simp⟩

/-- C6 witness: the check-digit scenario of the spec — the query differs from
the stored container code only in the trailing digit, tier 1 fails, and
the key10 tier returns the owning shipment with the real code as the
alternate. -/
theorem key10_tier_spec_w :
    apiContainer "MSCU1301009" [⟨"SHP-1", "V", ["MSCU1301003"]⟩]
      = .key10M ⟨"SHP-1", "V", ["MSCU1301003"]⟩
          (key10Alts (key10 "MSCU1301009") [⟨"SHP-1", "V", ["MSCU1301003"]⟩]) :=
  ((key10_tier_spec "MSCU1301009" [⟨"SHP-1", "V", ["MSCU1301003"]⟩]
      (by decide) (by decide)).2.2
    ⟨"SHP-1", "V", ["MSCU1301003"]⟩ [] (by decide)).1

/-- C7: with tiers 1–2 empty, a canonical query shorter than 4
characters yields the plain not-found with no suggestions; and whenever
the suggestion response is produced the canonical query has at least 4
characters and the suggestion list is the first-occurrence dedup by
shipment identifier of the collected candidates, capped at 10, with no
duplicate identifiers, and non-empty — carried by the 404 constructor,
never by a match constructor. -/
theorem suggestion_tier_spec (cn : String) (items : List Shipment)
    (h1 : items.find? (tier1M (canon cn)) = none)
    (h2 : key10Matches (key10 cn) items = []) :
    ((canon cn).length < 4 → apiContainer cn items = .notFound)
      ∧ (∀ l, apiContainer cn items = .suggestM l →
          4 ≤ (canon cn).length
            ∧ l = (dedupSuggAux [] (suggestionsFor (canon cn) items)).take 10
            ∧ (l.map Suggestion.id).Nodup
            ∧ l.length ≤ 10
            ∧ l ≠ []) := by
  constructor
  · intro hlen
    have hs : suggestionsFor (canon cn) items = [] := by
      unfold suggestionsFor
      rw [if_neg (by omega)]
    simp [apiContainer, h1, h2, hs]
  · intro l hl
    by_cases hlen : 4 ≤ (canon cn).length
    · cases hs : suggestionsFor (canon cn) items with
      | nil => simp [apiContainer, h1, h2, hs] at hl
      | cons r t =>
        have happ : apiContainer cn items = .suggestM (capDedupSugg (r :: t)) := by
          simp [apiContainer, h1, h2, hs]
        rw [happ] at hl
        injection hl with hl'
        subst hl'
        refine ⟨hlen, ?_, ?_, ?_, ?_⟩
        · rw [capDedupSugg_eq]
        · rw [capDedupSugg_eq, List.map_take]
          exact List.Nodup.sublist (List.take_sublist _ _) (dedupSuggAux_spec (r :: t) []).1
        · rw [capDedupSugg_eq, List.length_take]
          exact min_le_left _ _
        · rw [capDedupSugg_eq, dedupSuggAux, if_neg (by simp)]
          simp
    · have hs : suggestionsFor (canon cn) items = [] := by
        unfold suggestionsFor
        rw [if_neg hlen]
      simp [apiContainer, h1, h2, hs] at hl

/-- C7 witness: a four-character query matching only through the
canonical identifier (the hyphen defeats tier 1). -/
theorem suggestion_tier_spec_w :
    4 ≤ (canon "SH12").length
      ∧ [(⟨"SH-1234", "V", "ABCD7654321"⟩ : Suggestion)]
          = (dedupSuggAux []
              (suggestionsFor (canon "SH12") [⟨"SH-1234", "V", ["ABCD7654321"]⟩])).take 10
      ∧ ([(⟨"SH-1234", "V", "ABCD7654321"⟩ : Suggestion)].map Suggestion.id).Nodup
      ∧ [(⟨"SH-1234", "V", "ABCD7654321"⟩ : Suggestion)].length ≤ 10
      ∧ [(⟨"SH-1234", "V", "ABCD7654321"⟩ : Suggestion)] ≠ [] :=
  (suggestion_tier_spec "SH12" [⟨"SH-1234", "V", ["ABCD7654321"]⟩]
      (by decide) (by decide)).2
    [⟨"SH-1234", "V", "ABCD7654321"⟩] (by decide)

/-- C8: canon is idempotent, and the length of key10(s) is
min(10, length of canon(s)). -/
theorem canon_idem_key10_len (s : String) :
    canon (canon s) = canon s ∧ (key10 s).length = min 10 (canon s).length := by
  constructor
  · exact congrArg String.mk (canonList_idem s.data)
  · show ((canonList s.data).take 10).length = min 10 (canonList s.data).length
    exact List.length_take 10 (canonList s.data)

/-- C9: configuration gaps resolve to the documented defaults and the
computation proceeds: an unlisted region is scored with base risk 0.25
(the score is the one a table listing the region at 0.25 would give),
and a missing sigma_hours means the 2.5-hour sigma. -/
theorem config_defaults (tbl : RegionTable) (pred planned wind : ℚ) (region : String)
    (m : EtaModelCfg) (d s w c : ℚ)
    (h1 : tbl.lookup region = none) (h2 : m.sigma_hours = none) :
    regionBase tbl region = 0.25
      ∧ riskScore tbl pred planned wind region
          = riskScore ((region, 0.25) :: tbl) pred planned wind region
      ∧ etaSigma m = 2.5
      ∧ mlEtaCi90 m d s w c = mlEtaCi90 ⟨m.intercept, m.coef, some 2.5⟩ d s w c := by
  have hb : regionBase tbl region = 0.25 := by
    unfold regionBase
    rw [h1]
    rfl
  have hb2 : regionBase ((region, 0.25) :: tbl) region = 0.25 := by
    unfold regionBase
    rw [List.lookup_cons_self]
    rfl
  have hsg : etaSigma m = 2.5 := by
    unfold etaSigma
    rw [h2]
    rfl
  refine ⟨hb, ?_, hsg, ?_⟩
  · unfold riskScore
    rw [hb, hb2]
  · unfold mlEtaCi90 mlEtaHours
    rw [hsg]
    rfl

/-- C9 witness: unlisted region and absent sigma, concrete inputs. -/
theorem config_defaults_w :
    regionBase [("Suez", 0.9)] "Atlantic" = 0.25
      ∧ riskScore [("Suez", 0.9)] 50 48 5 "Atlantic"
          = riskScore (("Atlantic", 0.25) :: [("Suez", 0.9)]) 50 48 5 "Atlantic"
      ∧ etaSigma ⟨2, ⟨0.01, 5, 0.1, 1⟩, none⟩ = 2.5
      ∧ mlEtaCi90 ⟨2, ⟨0.01, 5, 0.1, 1⟩, none⟩ 100 18 5 0.25
          = mlEtaCi90 ⟨2, ⟨0.01, 5, 0.1, 1⟩, some 2.5⟩ 100 18 5 0.25 :=
  config_defaults [("Suez", 0.9)] 50 48 5 "Atlantic" ⟨2, ⟨0.01, 5, 0.1, 1⟩, none⟩
    100 18 5 0.25 (by decide) rfl

/-- C10: a query whose canonical form is empty resolves at tier 1 to
the first shipment of a non-empty sequence, tagged exact — the empty
string is a substring of every identifier — and never reaches the
not-found path. -/
theorem empty_canon_first (cn : String) (s : Shipment) (rest : List Shipment)
    (h : canon cn = "") : apiContainer cn (s :: rest) = .exactM s := by
  have hq : (canon cn).data = [] := by rw [h]
  have ht : tier1M (canon cn) s = true := by
    unfold tier1M
    rw [hq]
    simp [lowerList, strIn_nil_left]
  simp [apiContainer, List.find?_cons_of_pos _ ht]

/-- C10 witness: a punctuation-only query against a two-shipment list. -/
theorem empty_canon_first_w :
    apiContainer "--" [⟨"A", "V", ["C1"]⟩, ⟨"B", "W", ["C2"]⟩]
      = .exactM ⟨"A", "V", ["C1"]⟩ :=
  empty_canon_first "--" ⟨"A", "V", ["C1"]⟩ [⟨"B", "W", ["C2"]⟩] (by decide)

end ContainerApi
